import Mathlib

/-!
# Verification of the `threadsafe` library against its specification

Shallow embedding of the synchronization primitives of the repository:

* `AIReadWriteSpinLock` (src/AIReadWriteSpinLock.h): the 64-bit packed-state
  read/write spin lock.  The atomic `m_state` is an `int64_t`; here it is
  modelled by its unsigned 64-bit bit pattern (a `Nat` below `2^64`), with
  two's-complement wrap-around addition for `fetch_add` and the sign-bit test
  for the `state < 0` comparison.
* `AIReadWriteMutex` and the Vyukov `MpscQueue` (src/aireadwritemutex.h).
* `Semaphore` (src/Semaphore.h): a 64-bit futex word.
* The access-token state machine of `threadsafe.h` and the move-constructor
  event order of `UnlockedTrackedObject` / `ObjectTracker` / `TrackedObject`.
-/

set_option maxRecDepth 1000000

namespace AIReadWriteSpinLock

/-- `1 << shift` is much larger than the maximum number of threads. -/
def shift : Nat := 16

/-! ## The units of each counter

The 64-bit state packs four 16-bit counters `V C W R` (most significant
first).  `r`, `w`, `c`, `v` are the `int64_t` unit constants of the source;
they are nonnegative, so they are kept as the corresponding `Nat` values. -/

def r : Nat := 1

def w : Nat := r <<< shift

def c : Nat := w <<< shift

def v : Nat := c <<< shift

/-! Sign bits of the four 16-bit fields, used in `decode_increment`. -/

def sign_bit_r : Nat := r <<< (shift - 1)

def sign_bit_v : Nat := v <<< (shift - 1)

def sign_bit_c : Nat := c <<< (shift - 1)

def sign_bit_w : Nat := w <<< (shift - 1)

/-! The bits used for each counter. -/

def R_mask : Nat := w - 1

def W_mask : Nat := R_mask <<< shift

def C_mask : Nat := W_mask <<< shift

def CW_mask : Nat := C_mask ||| W_mask

def V_mask : Nat := C_mask <<< shift

/-! ## Possible transitions (signed 64-bit deltas applied by `fetch_add`) -/

def one_rdlock : Int := (r : Int)

/-- A negative value, significantly less than `one_rdlock * max_number_of_threads`. -/
def one_wrlock : Int := -(v : Int) + (w : Int)

/-- A negative value, significantly less than `w * max_number_of_threads`. -/
def one_rd2wrlock : Int := -(v : Int) + (c : Int)

/-- A negative value, significantly less than `c * max_number_of_threads`. -/
def one_waiting_writer : Int := -(v : Int)

/-! Follow-up transitions after examining the previous state of the above. -/

def failed_rdlock : Int := -one_rdlock

def failed_wrlock : Int := -one_wrlock + one_waiting_writer

def failed_rd2wrlock : Int := 0

def successful_rd2wrlock : Int := -one_rd2wrlock - one_rdlock + one_wrlock

def finalize_wrlock : Int := -failed_wrlock

/-! Transitions that can't fail. -/

def one_rdunlock : Int := -one_rdlock

def one_wrunlock : Int := -one_wrlock

def one_wr2rdlock : Int := one_wrunlock + one_rdlock

/-- Two's-complement bit pattern of a signed 64-bit value. -/
def toPattern (d : Int) : Nat := (d % (2 ^ 64 : Int)).toNat

/-- `m_state.fetch_add(increment)`: 64-bit wrap-around addition on the word. -/
def fetch_add (state : Nat) (increment : Int) : Nat := (state + toPattern increment) % 2 ^ 64

/-! ## The state predicates (src/AIReadWriteSpinLock.h:185-257)

Each predicate reads the 64-bit word; the `int64_t` comparison `state < 0`
becomes "the top bit is set" on the unsigned bit pattern. -/

/-- Returns true if there is an actual writer (`W > 0`), but also when there are
threads that are waiting to get a write lock (the `int64_t` test `state < 0`). -/
def writer_present (state : Nat) : Bool := decide (2 ^ 63 ≤ state)

/-- Returns true unless there are no readers, no writers and no waiting writers
(the `int64_t` test `state != 0`). -/
def reader_or_writer_present (state : Nat) : Bool := decide (state ≠ 0)

/-- Returns true when `R` is larger than zero. -/
def reader_present (state : Nat) : Bool := decide (state &&& R_mask ≠ 0)

/-- Returns true if either `C` or `W` is larger than zero. -/
def converting_or_actual_writer_present (state : Nat) : Bool := decide (state &&& CW_mask ≠ 0)

/-- Returns true iff `reader_present` or `converting_or_actual_writer_present`. -/
def reader_or_converting_or_actual_writer_present (state : Nat) : Bool :=
  decide (state &&& (R_mask ||| CW_mask) ≠ 0)

/-- Returns true iff a converting writer is present, aka `C > 0`. -/
def converting_writer_present (state : Nat) : Bool := decide (state &&& C_mask ≠ 0)

/-- Returns true iff `R > 1`. -/
def other_readers_present (state : Nat) : Bool := decide (1 < state &&& R_mask)

/-- Returns true iff `W > 0`. -/
def actual_writer_present (state : Nat) : Bool := decide (state &&& W_mask ≠ 0)

/-- Decode a 64-bit increment into the four signed per-field components
`(V, C, W, R)`, propagating the borrow of each negative field into the next
field (src/AIReadWriteSpinLock.h:259-273). -/
def decode_increment (increment : Int) : Int × Int × Int × Int :=
  let p := toPattern increment
  let i3 : Int := ((p &&& R_mask : Nat) : Int) - (((p &&& sign_bit_r) <<< 1 : Nat) : Int)
  let p := if i3 < 0 then (p + w) % 2 ^ 64 else p
  let i2 : Int := (((p &&& W_mask : Nat) : Int) - (((p &&& sign_bit_w) <<< 1 : Nat) : Int)) >>> shift
  let p := if i2 < 0 then (p + c) % 2 ^ 64 else p
  let i1 : Int :=
    (((p &&& C_mask : Nat) : Int) - (((p &&& sign_bit_c) <<< 1 : Nat) : Int)) >>> (2 * shift)
  let p := if i1 < 0 then (p + v) % 2 ^ 64 else p
  let i0 : Int :=
    (((p &&& V_mask : Nat) : Int) - (((p &&& sign_bit_v) <<< 1 : Nat) : Int)) >>> (3 * shift)
  (i0, i1, i2, i3)

/-- Rebuild the `int64_t` state value from the four signed counters
(`make_state` of src/AIReadWriteSpinLock.h:308-319). -/
def make_state (s : Int × Int × Int × Int) : Int :=
  (v : Int) * s.1 + (c : Int) * s.2.1 + (w : Int) * s.2.2.1 + (r : Int) * s.2.2.2

/-- Tests if adding `increment` to `m_state` can cause a (waiting) writer to be
removed: returns true if `V > 0 || C < 0 || W < 0`
(src/AIReadWriteSpinLock.h:275-281). -/
def removes_writer (increment : Int) : Bool :=
  let i := decode_increment increment
  decide (0 < i.1) || decide (i.2.1 < 0) || decide (i.2.2.1 < 0)

/-- Tests if adding `increment` to `m_state` can cause the number of
converting/actual writers to become zero: returns true if
`(C < 0 || W < 0) && !(C > 0 || W > 0)` (src/AIReadWriteSpinLock.h:283-290). -/
def removes_converting_or_actual_writer (increment : Int) : Bool :=
  let i := decode_increment increment
  (decide (i.2.1 < 0) || decide (i.2.2.1 < 0)) && !(decide (0 < i.2.1) || decide (0 < i.2.2.1))

/-- Returns true if `C < 0` (src/AIReadWriteSpinLock.h:292-297). -/
def removes_converting_writer (increment : Int) : Bool :=
  let i := decode_increment increment
  decide (i.2.1 < 0)

/-- Returns true if `W < 0` (src/AIReadWriteSpinLock.h:299-304). -/
def removes_actual_writer (increment : Int) : Bool :=
  let i := decode_increment increment
  decide (i.2.2.1 < 0)

/-- The increments `do_transition` is instantiated with throughout
src/AIReadWriteSpinLock.h, together with `one_waiting_writer` and its inverse
(the remaining member of the delta family and its inverse). -/
def transition_deltas : List Int :=
  [one_rdlock, failed_rdlock, one_wrlock, failed_wrlock, finalize_wrlock,
   one_waiting_writer, -one_waiting_writer,
   one_rd2wrlock, -one_rd2wrlock, successful_rd2wrlock,
   one_rdunlock, one_wrunlock, one_wr2rdlock]

/-- Result of one `do_transition<increment>()` call: the returned previous
state, the updated state, which condition-variable mutexes were held around
the `fetch_add`, and which notifications were issued afterwards. -/
structure TransitionResult where
  previous_state : Nat
  new_state : Nat
  readers_cv_mutex_locked : Bool
  writers_cv_mutex_locked : Bool
  notify_readers_all : Bool
  notify_writers_all : Bool
  notify_writers_one : Bool
deriving DecidableEq, Repr

/-- `do_transition<increment>()` (src/AIReadWriteSpinLock.h:601-696).
When `removes_writer increment` the `m_readers_cv_mutex` is locked around the
`fetch_add` (and `m_writers_cv_mutex` too when one of the three
`removes_...writer` tests holds), and afterwards the notifications are issued
according to which predicates changed from true to false; in the other branch
the `fetch_add` is performed with no mutex and no notification follows. -/
def do_transition (increment : Int) (state : Nat) : TransitionResult where
  previous_state := state
  new_state := fetch_add state increment
  readers_cv_mutex_locked := removes_writer increment
  writers_cv_mutex_locked :=
    removes_writer increment &&
      (removes_converting_or_actual_writer increment || removes_converting_writer increment ||
        removes_actual_writer increment)
  notify_readers_all :=
    removes_writer increment &&
      (writer_present state && !writer_present (fetch_add state increment))
  notify_writers_all :=
    removes_writer increment &&
      (converting_writer_present state && !converting_writer_present (fetch_add state increment))
  notify_writers_one :=
    removes_writer increment &&
      (!(converting_writer_present state &&
            !converting_writer_present (fetch_add state increment)) &&
        ((converting_or_actual_writer_present state &&
            !converting_or_actual_writer_present (fetch_add state increment)) ||
          (actual_writer_present state && !actual_writer_present (fetch_add state increment))))

/-- The state invariant: each of `R`, `W`, `C` is a nonnegative count that is
far from overflowing its 16-bit field, `V` is nonpositive (so the top field is
zero or a two's-complement value at least `2^15`), and `-V ≥ C + W` (every
active or converting writer also counts as a waiting writer). -/
def StateInvariant (state : Nat) : Prop :=
  state < 2 ^ 64 ∧
  state % 2 ^ 16 < 2 ^ 15 ∧
  state / 2 ^ 16 % 2 ^ 16 < 2 ^ 15 ∧
  state / 2 ^ 32 % 2 ^ 16 < 2 ^ 15 ∧
  (state / 2 ^ 48 = 0 ∨ 2 ^ 15 ≤ state / 2 ^ 48) ∧
  state / 2 ^ 32 % 2 ^ 16 + state / 2 ^ 16 % 2 ^ 16 ≤ (2 ^ 16 - state / 2 ^ 48) % 2 ^ 16

/-- A predicate changes from true at `s` to false at `t`. -/
def becomes_false (p : Nat → Bool) (s t : Nat) : Prop := p s = true ∧ p t = false

end AIReadWriteSpinLock

/-! ## Bit-mask arithmetic bridge -/

/-- Conjunction with a contiguous bit mask extracts a field: for every `x`,
`x &&& ((2^a - 1) * 2^b)` is the value of bits `b..b+a-1` of `x`. -/
theorem nat_and_mask (x a b : Nat) : x &&& ((2 ^ a - 1) * 2 ^ b) = x / 2 ^ b % 2 ^ a * 2 ^ b := by
  apply Nat.eq_of_testBit_eq
  intro i
  rw [← Nat.shiftLeft_eq, ← Nat.shiftLeft_eq, ← Nat.shiftRight_eq_div_pow]
  simp only [Nat.testBit_and, Nat.testBit_shiftLeft, Nat.testBit_mod_two_pow,
    Nat.testBit_shiftRight, Nat.testBit_two_pow_sub_one]
  rcases Nat.lt_or_ge i b with hb | hb
  · simp [Nat.not_le.mpr hb]
  · have h : b + (i - b) = i := Nat.add_sub_cancel' hb
    simp only [hb, decide_eq_true_eq, decide_True, Bool.true_and, h]
    rw [Bool.and_comm]

namespace AIReadWriteSpinLock

theorem and_R_mask (s : Nat) : s &&& R_mask = s % 2 ^ 16 := by
  rw [show R_mask = (2 ^ 16 - 1) * 2 ^ 0 by decide, nat_and_mask]
  simp

theorem and_W_mask (s : Nat) : s &&& W_mask = s / 2 ^ 16 % 2 ^ 16 * 2 ^ 16 := by
  rw [show W_mask = (2 ^ 16 - 1) * 2 ^ 16 by decide, nat_and_mask]

theorem and_C_mask (s : Nat) : s &&& C_mask = s / 2 ^ 32 % 2 ^ 16 * 2 ^ 32 := by
  rw [show C_mask = (2 ^ 16 - 1) * 2 ^ 32 by decide, nat_and_mask]

theorem and_CW_mask (s : Nat) : s &&& CW_mask = s / 2 ^ 16 % 2 ^ 32 * 2 ^ 16 := by
  rw [show CW_mask = (2 ^ 32 - 1) * 2 ^ 16 by decide, nat_and_mask]

theorem and_RCW_mask (s : Nat) : s &&& (R_mask ||| CW_mask) = s % 2 ^ 48 := by
  rw [show R_mask ||| CW_mask = (2 ^ 48 - 1) * 2 ^ 0 by decide, nat_and_mask]
  simp

/-! The four wake-up predicates in field arithmetic. -/

theorem writer_present_iff (s : Nat) : writer_present s = true ↔ 2 ^ 63 ≤ s := by
  simp [writer_present]

theorem converting_writer_present_iff (s : Nat) :
    converting_writer_present s = true ↔ s / 2 ^ 32 % 2 ^ 16 ≠ 0 := by
  simp [converting_writer_present, and_C_mask]

theorem actual_writer_present_iff (s : Nat) :
    actual_writer_present s = true ↔ s / 2 ^ 16 % 2 ^ 16 ≠ 0 := by
  simp [actual_writer_present, and_W_mask]

theorem converting_or_actual_writer_present_iff (s : Nat) :
    converting_or_actual_writer_present s = true ↔ s / 2 ^ 16 % 2 ^ 32 ≠ 0 := by
  simp [converting_or_actual_writer_present, and_CW_mask]

/-- The disjunction of the four true-to-false transitions whose occurrence
obliges `do_transition` to notify, written in field arithmetic. -/
theorem wakeup_transitions_iff (s t : Nat) :
    (becomes_false writer_present s t ∨
        becomes_false converting_or_actual_writer_present s t ∨
        becomes_false actual_writer_present s t ∨
        becomes_false converting_writer_present s t) ↔
      ((2 ^ 63 ≤ s ∧ ¬ 2 ^ 63 ≤ t) ∨
        (s / 2 ^ 16 % 2 ^ 32 ≠ 0 ∧ t / 2 ^ 16 % 2 ^ 32 = 0) ∨
        (s / 2 ^ 16 % 2 ^ 16 ≠ 0 ∧ t / 2 ^ 16 % 2 ^ 16 = 0) ∨
        (s / 2 ^ 32 % 2 ^ 16 ≠ 0 ∧ t / 2 ^ 32 % 2 ^ 16 = 0)) := by
  simp [becomes_false, writer_present, converting_or_actual_writer_present,
    actual_writer_present, converting_writer_present, and_C_mask, and_CW_mask, and_W_mask]

/-- C1: for every packed-state delta of the lock's delta family and every
pre-state satisfying the state invariant whose post-state also satisfies it,
if any of `writer_present`, `converting_or_actual_writer_present`,
`actual_writer_present`, `converting_writer_present` changes from true to
false across the delta, then `removes_writer delta` holds, so `do_transition`
takes its notification branch. -/
theorem removes_writer_covers_wakeups
    (d : Int) (hd : d ∈ transition_deltas) (s : Nat)
    (hs : StateInvariant s) (hs' : StateInvariant (fetch_add s d))
    (h : becomes_false writer_present s (fetch_add s d) ∨
        becomes_false converting_or_actual_writer_present s (fetch_add s d) ∨
        becomes_false actual_writer_present s (fetch_add s d) ∨
        becomes_false converting_writer_present s (fetch_add s d)) :
    removes_writer d = true := by
  rw [wakeup_transitions_iff] at h
  unfold StateInvariant at hs hs'
  fin_cases hd
  · -- one_rdlock
    exfalso
    rw [show fetch_add s one_rdlock = (s + 1) % 2 ^ 64 from rfl] at hs' h
    rcases h with h | h | h | h <;> omega
  · -- failed_rdlock
    exfalso
    rw [show fetch_add s failed_rdlock = (s + (2 ^ 64 - 1)) % 2 ^ 64 from rfl] at hs' h
    rcases h with h | h | h | h <;> omega
  · -- one_wrlock
    exfalso
    rw [show fetch_add s one_wrlock = (s + (2 ^ 64 - 2 ^ 48 + 2 ^ 16)) % 2 ^ 64 from rfl]
      at hs' h
    rcases h with h | h | h | h <;> omega
  · -- failed_wrlock
    decide
  · -- finalize_wrlock
    exfalso
    rw [show fetch_add s finalize_wrlock = (s + 2 ^ 16) % 2 ^ 64 from rfl] at hs' h
    rcases h with h | h | h | h <;> omega
  · -- one_waiting_writer
    exfalso
    rw [show fetch_add s one_waiting_writer = (s + (2 ^ 64 - 2 ^ 48)) % 2 ^ 64 from rfl]
      at hs' h
    rcases h with h | h | h | h <;> omega
  · -- -one_waiting_writer
    decide
  · -- one_rd2wrlock
    exfalso
    rw [show fetch_add s one_rd2wrlock = (s + (2 ^ 64 - 2 ^ 48 + 2 ^ 32)) % 2 ^ 64 from rfl]
      at hs' h
    rcases h with h | h | h | h <;> omega
  · -- -one_rd2wrlock
    decide
  · -- successful_rd2wrlock
    decide
  · -- one_rdunlock
    exfalso
    rw [show fetch_add s one_rdunlock = (s + (2 ^ 64 - 1)) % 2 ^ 64 from rfl] at hs' h
    rcases h with h | h | h | h <;> omega
  · -- one_wrunlock
    decide
  · -- one_wr2rdlock
    decide

/-- Closed instance of `removes_writer_covers_wakeups`: releasing the write
lock from the state `{V = -1, W = 1}` makes `writer_present` false, and
`removes_writer one_wrunlock` indeed holds. -/
theorem removes_writer_covers_wakeups_witness : removes_writer one_wrunlock = true :=
  removes_writer_covers_wakeups one_wrunlock (by decide) (2 ^ 64 - 2 ^ 48 + 2 ^ 16)
    (by unfold StateInvariant; decide) (by unfold StateInvariant; decide)
    (Or.inl ⟨by decide, by decide⟩)

/-- The three true-to-false transitions checked before notifying
`m_writers_cv`, written in field arithmetic. -/
theorem writers_wakeup_transitions_iff (s t : Nat) :
    (becomes_false converting_writer_present s t ∨
        becomes_false converting_or_actual_writer_present s t ∨
        becomes_false actual_writer_present s t) ↔
      ((s / 2 ^ 32 % 2 ^ 16 ≠ 0 ∧ t / 2 ^ 32 % 2 ^ 16 = 0) ∨
        (s / 2 ^ 16 % 2 ^ 32 ≠ 0 ∧ t / 2 ^ 16 % 2 ^ 32 = 0) ∨
        (s / 2 ^ 16 % 2 ^ 16 ≠ 0 ∧ t / 2 ^ 16 % 2 ^ 16 = 0)) := by
  simp [becomes_false, converting_or_actual_writer_present, actual_writer_present,
    converting_writer_present, and_C_mask, and_CW_mask, and_W_mask]

/-- Any delta of the family that can turn `converting_writer_present`,
`converting_or_actual_writer_present` or `actual_writer_present` from true to
false (between invariant states) decreases `C` or `W`, so one of the three
`removes_...writer` tests holds. -/
theorem writers_wakeup_needs_removal
    (d : Int) (hd : d ∈ transition_deltas) (s : Nat)
    (hs : StateInvariant s) (hs' : StateInvariant (fetch_add s d))
    (h : becomes_false converting_writer_present s (fetch_add s d) ∨
        becomes_false converting_or_actual_writer_present s (fetch_add s d) ∨
        becomes_false actual_writer_present s (fetch_add s d)) :
    (removes_converting_or_actual_writer d || removes_converting_writer d ||
      removes_actual_writer d) = true := by
  rw [writers_wakeup_transitions_iff] at h
  unfold StateInvariant at hs hs'
  fin_cases hd
  · exfalso
    rw [show fetch_add s one_rdlock = (s + 1) % 2 ^ 64 from rfl] at hs' h
    rcases h with h | h | h <;> omega
  · exfalso
    rw [show fetch_add s failed_rdlock = (s + (2 ^ 64 - 1)) % 2 ^ 64 from rfl] at hs' h
    rcases h with h | h | h <;> omega
  · exfalso
    rw [show fetch_add s one_wrlock = (s + (2 ^ 64 - 2 ^ 48 + 2 ^ 16)) % 2 ^ 64 from rfl]
      at hs' h
    rcases h with h | h | h <;> omega
  · decide
  · exfalso
    rw [show fetch_add s finalize_wrlock = (s + 2 ^ 16) % 2 ^ 64 from rfl] at hs' h
    rcases h with h | h | h <;> omega
  · exfalso
    rw [show fetch_add s one_waiting_writer = (s + (2 ^ 64 - 2 ^ 48)) % 2 ^ 64 from rfl]
      at hs' h
    rcases h with h | h | h <;> omega
  · exfalso
    rw [show fetch_add s (-one_waiting_writer) = (s + 2 ^ 48) % 2 ^ 64 from rfl] at hs' h
    rcases h with h | h | h <;> omega
  · exfalso
    rw [show fetch_add s one_rd2wrlock = (s + (2 ^ 64 - 2 ^ 48 + 2 ^ 32)) % 2 ^ 64 from rfl]
      at hs' h
    rcases h with h | h | h <;> omega
  · decide
  · decide
  · exfalso
    rw [show fetch_add s one_rdunlock = (s + (2 ^ 64 - 1)) % 2 ^ 64 from rfl] at hs' h
    rcases h with h | h | h <;> omega
  · decide
  · decide

/-- C9: whenever `do_transition` decides to notify `m_writers_cv` (with
`notify_all` or `notify_one`), the branch that locked `m_writers_cv_mutex`
around the `fetch_add` was taken, so the debug assertion
`ASSERT(m_writers_cv_mutex_was_locked)` cannot fail. -/
theorem do_transition_wakeup_holds_writers_cv_mutex
    (d : Int) (hd : d ∈ transition_deltas) (s : Nat)
    (hs : StateInvariant s) (hs' : StateInvariant (fetch_add s d))
    (h : (do_transition d s).notify_writers_all = true ∨
        (do_transition d s).notify_writers_one = true) :
    (do_transition d s).writers_cv_mutex_locked = true := by
  have key := writers_wakeup_needs_removal d hd s hs hs'
  simp only [do_transition] at h ⊢
  rw [Bool.and_eq_true]
  rcases h with h | h
  · rw [Bool.and_eq_true] at h
    refine ⟨h.1, key (Or.inl ?_)⟩
    have h2 := h.2
    rw [Bool.and_eq_true, Bool.not_eq_true'] at h2
    exact ⟨h2.1, h2.2⟩
  · rw [Bool.and_eq_true] at h
    refine ⟨h.1, key ?_⟩
    have h2 := (Bool.and_eq_true _ _ ▸ h.2 : _ ∧ _).2
    rw [Bool.or_eq_true] at h2
    rcases h2 with h3 | h3
    · rw [Bool.and_eq_true, Bool.not_eq_true'] at h3
      exact Or.inr (Or.inl ⟨h3.1, h3.2⟩)
    · rw [Bool.and_eq_true, Bool.not_eq_true'] at h3
      exact Or.inr (Or.inr ⟨h3.1, h3.2⟩)

/-- Closed instance of `do_transition_wakeup_holds_writers_cv_mutex`: the
write-unlock from `{V = -1, W = 1}` issues `notify_one` on `m_writers_cv`,
and `m_writers_cv_mutex` was indeed locked around its `fetch_add`. -/
theorem do_transition_wakeup_holds_writers_cv_mutex_witness :
    (do_transition one_wrunlock (2 ^ 64 - 2 ^ 48 + 2 ^ 16)).writers_cv_mutex_locked = true :=
  do_transition_wakeup_holds_writers_cv_mutex one_wrunlock (by decide)
    (2 ^ 64 - 2 ^ 48 + 2 ^ 16) (by unfold StateInvariant; decide)
    (by unfold StateInvariant; decide) (Or.inr (by decide))

/-- C3: the delta constants satisfy
`one_wr2rdlock + one_rdunlock = one_wrunlock`, so applying `wr2rdlock`
followed by `rdunlock` to any 64-bit starting state yields exactly the state
produced by a single `wrunlock`. -/
theorem wr2rdlock_then_rdunlock_eq_wrunlock (s : Nat) :
    fetch_add (fetch_add s one_wr2rdlock) one_rdunlock = fetch_add s one_wrunlock ∧
    one_wr2rdlock + one_rdunlock = one_wrunlock := by
  constructor
  · simp only [fetch_add,
      show toPattern one_wr2rdlock = 2 ^ 48 - 2 ^ 16 + 1 from rfl,
      show toPattern one_rdunlock = 2 ^ 64 - 1 from rfl,
      show toPattern one_wrunlock = 2 ^ 48 - 2 ^ 16 from rfl]
    omega
  · decide

end AIReadWriteSpinLock

namespace AIReadWriteSpinLock

/-- Outcome of the decision phase of `rd2wrlock()`: immediate success,
`DeadlockAvoided` thrown (modelled as an error value), or continuing into the
spin/wait part of the function. -/
inductive Rd2wrOutcome where
  | success (state : Nat)
  | deadlock_avoided (state : Nat)
  | waits (state : Nat)
deriving DecidableEq, Repr

/-- `rd2wrlock()` (src/AIReadWriteSpinLock.h:888-909).  The thread applies
`one_rd2wrlock`; the returned previous state decides: no reader, converting
or actual writer (other than us) means immediate success (finalized with
`successful_rd2wrlock`); a converting writer already present in the previous
state means the transition is reverted with `-one_rd2wrlock` and
`std::exception` (DeadlockAvoided) is thrown; otherwise the thread goes on to
spin and wait. -/
def rd2wrlock (s : Nat) : Rd2wrOutcome :=
  let state := (do_transition one_rd2wrlock s).previous_state
  let s1 := (do_transition one_rd2wrlock s).new_state
  if reader_or_converting_or_actual_writer_present state = false then
    .success (do_transition successful_rd2wrlock s1).new_state
  else if converting_writer_present state = true then
    .deadlock_avoided (do_transition (-one_rd2wrlock) s1).new_state
  else
    .waits s1

end AIReadWriteSpinLock

namespace AIReadWriteMutex

/-- Result of the `m_rd2wr_count` handshake at the top of
`AIReadWriteMutex::rd2wrlock` (src/aireadwritemutex.h:103-116). -/
inductive Rd2wrEntry where
  | throws (m_rd2wr_count : Int)
  | proceeds (m_rd2wr_count : Int)
deriving DecidableEq, Repr

/-- `if (++m_rd2wr_count > 1) { --m_rd2wr_count; throw std::exception(); }`:
only the first thread that calls `rd2wrlock` gets past this. -/
def rd2wrlock_entry (m_rd2wr_count : Int) : Rd2wrEntry :=
  let count := m_rd2wr_count + 1
  if count > 1 then .throws (count - 1) else .proceeds count

/-- The observable actions of `AIReadWriteMutex::wrunlock`. -/
inductive WrunlockEvent where
  | lock_state_mutex
  | set_readers_count (n : Int)
  | unlock_state_mutex
  | notify_one_unlocked
  | notify_one_no_writer_left
  | broadcast_no_writer_left
deriving DecidableEq, Repr

/-- `wrunlock()` (src/aireadwritemutex.h:127-134): lock `m_state_mutex`, set
`m_readers_count = 0`, unlock, then unconditionally `notify_one` on
`m_condition_unlocked` followed by `notify_one` on
`m_condition_no_writer_left`.  The member `m_waiting_writer` is not
consulted. -/
def wrunlock (_m_waiting_writer : Bool) : List WrunlockEvent :=
  [.lock_state_mutex, .set_readers_count 0, .unlock_state_mutex,
   .notify_one_unlocked, .notify_one_no_writer_left]

/-- The behaviour claim C7 ascribes to `wrunlock` (from the spec sentence
"sets `readers = 0`; signals unlocked (if any waiting writers) or broadcasts
no-writer-left"): a conditional signal of only one of the two condition
variables. -/
def wrunlock_claimed (m_waiting_writer : Bool) : List WrunlockEvent :=
  [.lock_state_mutex, .set_readers_count 0, .unlock_state_mutex] ++
    (if m_waiting_writer then [.notify_one_unlocked] else [.broadcast_no_writer_left])

end AIReadWriteMutex

open AIReadWriteSpinLock AIReadWriteMutex in
/-- C2: in `AIReadWriteSpinLock` (C5), `rd2wrlock` raises DeadlockAvoided iff
a converting writer was present in the state previous to applying
`one_rd2wrlock`, and before throwing it reverts its own change, leaving the
packed state equal to its value at entry; likewise `AIReadWriteMutex` (C4)
throws exactly when the incremented `m_rd2wr_count` exceeds 1 and restores
the counter before throwing. -/
theorem rd2wrlock_deadlock_avoided (s : Nat) (hs : s < 2 ^ 64) (n : Int) :
    ((∃ t, AIReadWriteSpinLock.rd2wrlock s = .deadlock_avoided t) ↔
        converting_writer_present s = true) ∧
    (∀ t, AIReadWriteSpinLock.rd2wrlock s = .deadlock_avoided t → t = s) ∧
    ((∃ m, rd2wrlock_entry n = .throws m) ↔ 1 < n + 1) ∧
    (∀ m, rd2wrlock_entry n = .throws m → m = n) := by
  have hsub : converting_writer_present s = true →
      reader_or_converting_or_actual_writer_present s = true := by
    rw [converting_writer_present_iff]
    simp only [reader_or_converting_or_actual_writer_present, and_RCW_mask, decide_eq_true_eq]
    omega
  have hrevert : fetch_add (fetch_add s one_rd2wrlock) (-one_rd2wrlock) = s := by
    simp only [fetch_add,
      show toPattern one_rd2wrlock = 2 ^ 64 - 2 ^ 48 + 2 ^ 32 from rfl,
      show toPattern (-one_rd2wrlock) = 2 ^ 48 - 2 ^ 32 from rfl]
    omega
  have hred : AIReadWriteSpinLock.rd2wrlock s =
      if reader_or_converting_or_actual_writer_present s = false then
        .success (fetch_add (fetch_add s one_rd2wrlock) successful_rd2wrlock)
      else if converting_writer_present s = true then
        .deadlock_avoided (fetch_add (fetch_add s one_rd2wrlock) (-one_rd2wrlock))
      else .waits (fetch_add s one_rd2wrlock) := rfl
  have hentry : ∀ k : Int, rd2wrlock_entry k =
      if k + 1 > 1 then .throws (k + 1 - 1) else .proceeds (k + 1) := fun _ => rfl
  refine ⟨⟨?_, ?_⟩, ?_, ?_, ?_⟩
  · rintro ⟨t, ht⟩
    rw [hred] at ht
    cases h1 : reader_or_converting_or_actual_writer_present s with
    | false => rw [h1] at ht; simp at ht
    | true =>
      cases h2 : converting_writer_present s with
      | false => rw [h1, h2] at ht; simp at ht
      | true => rfl
  · intro h2
    refine ⟨s, ?_⟩
    rw [hred, hsub h2, h2, hrevert]
    simp
  · intro t ht
    rw [hred] at ht
    cases h1 : reader_or_converting_or_actual_writer_present s with
    | false => rw [h1] at ht; simp at ht
    | true =>
      cases h2 : converting_writer_present s with
      | false => rw [h1, h2] at ht; simp at ht
      | true =>
        rw [h1, h2, hrevert] at ht
        simp only [Bool.true_eq_false, reduceIte] at ht
        cases ht
        rfl
  · constructor
    · rintro ⟨m, hm⟩
      rw [hentry] at hm
      by_cases h : n + 1 > 1
      · exact h
      · rw [if_neg h] at hm; cases hm
    · intro h
      exact ⟨n + 1 - 1, by rw [hentry, if_pos h]⟩
  · intro m hm
    rw [hentry] at hm
    by_cases h : n + 1 > 1
    · rw [if_pos h] at hm
      cases hm
      omega
    · rw [if_neg h] at hm; cases hm

/-- Closed instance of `rd2wrlock_deadlock_avoided`: from the state
`{V = -1, C = 1, R = 2}` (another thread is already converting), `rd2wrlock`
raises DeadlockAvoided. -/
theorem rd2wrlock_deadlock_avoided_witness :
    ∃ t, AIReadWriteSpinLock.rd2wrlock (2 ^ 64 - 2 ^ 48 + 2 ^ 32 + 2) =
      .deadlock_avoided t :=
  (rd2wrlock_deadlock_avoided (2 ^ 64 - 2 ^ 48 + 2 ^ 32 + 2) (by decide) 1).1.mpr (by decide)

/-- C7 counterexample: `AIReadWriteMutex::wrunlock` notifies both condition
variables unconditionally (with `notify_one`), so its behaviour differs from
the claimed "signal unlocked if a writer is waiting, else broadcast
no-writer-left" in both cases. -/
theorem wrunlock_signals_both_counterexample :
    AIReadWriteMutex.wrunlock false ≠ AIReadWriteMutex.wrunlock_claimed false ∧
    AIReadWriteMutex.wrunlock true ≠ AIReadWriteMutex.wrunlock_claimed true := by decide

/-- C7 (amended): `wrunlock` sets the reader count to 0 under the state
mutex, releases the mutex, and then unconditionally calls `notify_one` on the
unlocked condition variable and `notify_one` on the no-writer-left condition
variable, independently of whether writers are waiting. -/
theorem wrunlock_sets_readers_then_signals_both (b : Bool) :
    (AIReadWriteMutex.wrunlock b).get? 0 = some .lock_state_mutex ∧
    (AIReadWriteMutex.wrunlock b).get? 1 = some (.set_readers_count 0) ∧
    (AIReadWriteMutex.wrunlock b).get? 2 = some .unlock_state_mutex ∧
    (AIReadWriteMutex.wrunlock b).get? 3 = some .notify_one_unlocked ∧
    (AIReadWriteMutex.wrunlock b).get? 4 = some .notify_one_no_writer_left ∧
    .broadcast_no_writer_left ∉ AIReadWriteMutex.wrunlock b ∧
    AIReadWriteMutex.wrunlock b = AIReadWriteMutex.wrunlock (!b) := by
  cases b <;> decide

namespace Semaphore

/-! `Semaphore` (src/Semaphore.h): the 64-bit futex word holds the token count
in its 32 least significant bits and the number of blocked threads in the 32
most significant bits. -/

def nwaiters_shift : Nat := 32

def one_waiter : Nat := 1 <<< nwaiters_shift

def tokens_mask : Nat := one_waiter - 1

theorem and_tokens_mask (x : Nat) : x &&& tokens_mask = x % 2 ^ 32 := by
  rw [show tokens_mask = (2 ^ 32 - 1) * 2 ^ 0 by decide, nat_and_mask]
  simp

/-- Result of `post`: the updated word, whether the overflow assertion held,
and whether (and for how many threads) `Futex::wake` was called. -/
structure PostResult where
  new_word : Nat
  assert_ok : Bool
  wake : Bool
  wake_count : Nat
deriving DecidableEq, Repr

/-- `post(n)` (src/Semaphore.h:66-86): a single `fetch_add(n)` on `m_word`;
`ASSERT(prev_tokens + n <= tokens_mask)` guards against overflow of the token
field; `Futex<uint64_t>::wake(n)` is issued iff the waiters field of the
previous word was positive. -/
def post (word : Nat) (n : Nat) : PostResult :=
  { new_word := (word + n) % 2 ^ 64
    assert_ok := decide ((word &&& tokens_mask) + n ≤ tokens_mask)
    wake := decide (0 < word >>> nwaiters_shift)
    wake_count := n }

/-- `try_wait()` (src/Semaphore.h:147-164) in an interference-free execution:
the weak compare-exchange succeeds on its first attempt, so the function
either returns false leaving the word untouched (token field zero) or
decrements the whole word by one and returns true. -/
def try_wait (word : Nat) : Bool × Nat :=
  if word &&& tokens_mask = 0 then (false, word) else (true, word - 1)

/-- C6: `post(n)` adds `n` to the low 32-bit token field with a single
`fetch_add` (no wrap-around under the asserted bound `prev_tokens + n ≤
2^32 - 1`), leaves the waiters field unchanged, and wakes up to `n` threads
iff the waiters field of the previous word was positive. -/
theorem post_adds_tokens_and_wakes
    (word n : Nat) (hword : word < 2 ^ 64) (hok : (post word n).assert_ok = true) :
    (post word n).new_word = word + n ∧
    (post word n).new_word % 2 ^ 32 = word % 2 ^ 32 + n ∧
    (post word n).new_word / 2 ^ 32 = word / 2 ^ 32 ∧
    ((post word n).wake = true ↔ 0 < word / 2 ^ 32) ∧
    (post word n).wake_count = n := by
  simp only [post, and_tokens_mask] at hok ⊢
  simp only [show nwaiters_shift = 32 from rfl, show tokens_mask = 2 ^ 32 - 1 from rfl,
    Nat.shiftRight_eq_div_pow, decide_eq_true_eq] at hok ⊢
  exact ⟨by omega, by omega, by omega, trivial, trivial⟩

/-- Closed instance of `post_adds_tokens_and_wakes`: posting 3 tokens on a
word with 5 tokens and 1 waiter triggers a wake. -/
theorem post_adds_tokens_and_wakes_witness :
    (post (2 ^ 32 + 5) 3).wake = true ↔ 0 < (2 ^ 32 + 5) / 2 ^ 32 :=
  (post_adds_tokens_and_wakes (2 ^ 32 + 5) 3 (by decide) (by decide)).2.2.2.1

/-- C10: `try_wait` never modifies the waiters field: on success it has
decreased the token field by exactly one with the waiters field unchanged,
and on failure (token field zero) it has not modified the word at all. -/
theorem try_wait_leaves_waiters_untouched (word : Nat) :
    ((try_wait word).1 = true →
      (try_wait word).2 / 2 ^ 32 = word / 2 ^ 32 ∧
      (try_wait word).2 % 2 ^ 32 + 1 = word % 2 ^ 32) ∧
    ((try_wait word).1 = false → (try_wait word).2 = word ∧ word % 2 ^ 32 = 0) := by
  rw [show try_wait word = if word % 2 ^ 32 = 0 then (false, word) else (true, word - 1) by
    rw [try_wait, and_tokens_mask]]
  by_cases h : word % 2 ^ 32 = 0
  · rw [if_pos h]
    constructor
    · intro hfalse
      cases hfalse
    · intro _
      exact ⟨rfl, h⟩
  · rw [if_neg h]
    refine ⟨fun _ => ⟨?_, ?_⟩, fun hfalse => by cases hfalse⟩
    · show (word - 1) / 2 ^ 32 = word / 2 ^ 32
      omega
    · show (word - 1) % 2 ^ 32 + 1 = word % 2 ^ 32
      omega

/-- Closed instance of `try_wait_leaves_waiters_untouched` at a word with one
waiter and five tokens: the successful path keeps the waiters field. -/
theorem try_wait_leaves_waiters_untouched_witness :
    (try_wait (2 ^ 32 + 5)).2 / 2 ^ 32 = (2 ^ 32 + 5) / 2 ^ 32 ∧
    (try_wait (2 ^ 32 + 5)).2 % 2 ^ 32 + 1 = (2 ^ 32 + 5) % 2 ^ 32 :=
  (try_wait_leaves_waiters_untouched (2 ^ 32 + 5)).1 (by decide)

end Semaphore

namespace threadsafe

/-- Internal enum for the lock-type of an Access object
(src/threadsafe.h:717-725). -/
inductive state_type where
  | readlocked
  | read2writelocked
  | writelocked
  | write2writelocked
  | carrylocked
deriving DecidableEq, Repr

/-- The unlock operations a token destructor can perform on the ReadWrite
mutex of the guarded object. -/
inductive UnlockOp where
  | rdunlock
  | wrunlock
  | wr2rdlock
deriving DecidableEq, Repr

/-- The unlock performed by `~ConstReadAccess` (src/threadsafe.h:739-752) as
a function of `m_state`, for a non-null `m_unlocked`: `readlocked` releases
the read lock, `writelocked` the write lock, `read2writelocked` downgrades
with `wr2rdlock`, and the remaining states perform no unlock operation. -/
def destructor_unlock : state_type → Option UnlockOp
  | .readlocked => some .rdunlock
  | .writelocked => some .wrunlock
  | .read2writelocked => some .wr2rdlock
  | _ => none

/-- `WriteAccess(ReadAccess& access)` (src/threadsafe.h:880-894).  The base
class is initialized with `m_state = write2writelocked`; when
`access.m_state == readlocked` the constructor body calls `rd2wrlock()` on the
mutex — if that throws DeadlockAvoided (`throws = true`) the partially
constructed object unwinds (`Except.error`) with `m_state` still
`write2writelocked`, and only after `rd2wrlock()` succeeds is `m_state`
corrected to `read2writelocked`. -/
def WriteAccess_from_ReadAccess (access_state : state_type) (throws : Bool) :
    Except state_type state_type :=
  let m_state := state_type.write2writelocked
  if access_state = .readlocked then
    if throws then .error m_state
    else .ok .read2writelocked
  else .ok m_state

/-- C4: promoting a rat to a wat calls `rd2wrlock`, which may throw
DeadlockAvoided; if it throws, the partially-constructed wat unwinds with
state `write2writelocked`, whose destructor performs no unlock; on success
the state is `read2writelocked`, so the destructor downgrades with
`wr2rdlock` rather than calling `wrunlock`. -/
theorem wat_from_rat_state_machine :
    WriteAccess_from_ReadAccess .readlocked true = .error .write2writelocked ∧
    destructor_unlock .write2writelocked = none ∧
    WriteAccess_from_ReadAccess .readlocked false = .ok .read2writelocked ∧
    destructor_unlock .read2writelocked = some .wr2rdlock ∧
    destructor_unlock .read2writelocked ≠ some .wrunlock :=
  ⟨rfl, rfl, rfl, rfl, by decide⟩

end threadsafe

namespace UnlockedTrackedObject

/-- The lock and pointer-update events performed while move-constructing an
`UnlockedTrackedObject` (src/unnamed/part_004). -/
inductive MoveEvent where
  | wrlock_orig_mutex
  | move_data_new_mutex
  | tracker_wrlock
  | set_tracked_unlocked
  | tracker_wrunlock
  | update_mutex_pointer
  | wrunlock_orig_mutex
deriving DecidableEq, Repr

/-- The event sequence of `UnlockedTrackedObject(UnlockedTrackedObject&&)`
(src/unnamed/part_004 lines 94-100): the base-class initializer write-locks
`orig` (`orig.do_wrlock()`) and moves the data, creating a new mutex; inside
that move, `TrackedObject`'s move constructor (lines 213-217) calls
`ObjectTracker::set_tracked_unlocked` (lines 166-171), which acquires and
releases a `wat` on the tracker's spin lock to repoint the data pointer; the
constructor body then calls `ObjectTracker::update_mutex_pointer` (lines
173-177), which acquires and releases a second `wat` to repoint the mutex
pointer; finally `orig.do_wrunlock()` unlocks the source's old mutex. -/
def move_trace : List MoveEvent :=
  [.wrlock_orig_mutex,
   .move_data_new_mutex,
   .tracker_wrlock, .set_tracked_unlocked, .tracker_wrunlock,
   .tracker_wrlock, .update_mutex_pointer, .tracker_wrunlock,
   .wrunlock_orig_mutex]

/-- The tracker's spin lock is write-held after the first `i` events of `tr`
(when the event at position `i` happens). -/
def tracker_locked_at (tr : List MoveEvent) (i : Nat) : Bool :=
  (tr.take i).count MoveEvent.tracker_wrunlock < (tr.take i).count MoveEvent.tracker_wrlock

/-- The reading of claim C8 under which no stale pointer pair is observable:
the data-pointer update and the mutex-pointer update happen inside one
tracker write-lock critical section, i.e. no release of the tracker lock
separates them. -/
def updates_in_one_critical_section (tr : List MoveEvent) : Prop :=
  ∀ i j k : Fin tr.length, i < j → j < k →
    tr.get i = .set_tracked_unlocked → tr.get k = .update_mutex_pointer →
    tr.get j ≠ .tracker_wrunlock

/-- C8 counterexample: in the move constructor the tracker's write lock is
released between the data-pointer update and the mutex-pointer update (they
are two separate `wat` critical sections), so a thread taking the tracker's
lock between them observes the new data pointer paired with the old mutex
pointer. -/
theorem move_not_one_critical_section :
    ¬ updates_in_one_critical_section move_trace := by
  unfold updates_in_one_critical_section
  decide

/-- C8 (amended): the move constructor first write-locks the source's data
mutex, moves the data (creating the new mutex), repoints the tracker's data
pointer and then its mutex pointer — each under a separately acquired tracker
write-lock — and only then unlocks the source's old mutex. -/
theorem move_repoints_under_lock_before_unlock :
    move_trace.get? 0 = some .wrlock_orig_mutex ∧
    (∀ i : Fin move_trace.length,
        (move_trace.get i = .set_tracked_unlocked ∨
            move_trace.get i = .update_mutex_pointer) →
        tracker_locked_at move_trace i = true) ∧
    (∀ i j : Fin move_trace.length, move_trace.get i = .set_tracked_unlocked →
        move_trace.get j = .update_mutex_pointer → i < j) ∧
    (∀ i j : Fin move_trace.length, move_trace.get i = .update_mutex_pointer →
        move_trace.get j = .wrunlock_orig_mutex → i < j) := by decide

end UnlockedTrackedObject

namespace MpscQueue

/-! ## The intrusive Vyukov MPSC queue (src/aireadwritemutex.h:184-323)

Nodes are identified by addresses; memory is the `m_next` field of every
node, modelled as a function from node to `Option` node (`none` is the null
pointer).  The internal stub node `m_stub` has address `stub = 0`; client
nodes have positive addresses. -/

abbrev NodeRef := Nat

/-- The address of the member node `m_stub`. -/
def stub : NodeRef := 0

/-- The queue state: `m_head`, `m_tail`, and every node's `m_next` field. -/
structure MQ where
  head : NodeRef
  tail : NodeRef
  next : NodeRef → Option NodeRef

/-- `a->m_next.store(b)`. -/
def setNext (nx : NodeRef → Option NodeRef) (a : NodeRef) (b : Option NodeRef) :
    NodeRef → Option NodeRef :=
  fun m => if m = a then b else nx m

theorem setNext_self (nx : NodeRef → Option NodeRef) (a : NodeRef) (b : Option NodeRef) :
    setNext nx a b a = b := by
  simp [setNext]

theorem setNext_other (nx : NodeRef → Option NodeRef) {a m : NodeRef} (b : Option NodeRef)
    (h : m ≠ a) : setNext nx a b m = nx m := by
  simp [setNext, h]

/-- `MpscQueue()`: `m_head` and `m_tail` point to `m_stub`, whose `m_next` is
null; no other node is linked. -/
def init : MQ := { head := stub, tail := stub, next := fun _ => none }

/-- `push(node)` (src/aireadwritemutex.h:252-260): store null in the new
node's next pointer, exchange `m_head` with the node, then fix the next
pointer of the node `m_head` was pointing at. -/
def push (q : MQ) (node : NodeRef) : MQ :=
  { head := node
    tail := q.tail
    next := setNext (setNext q.next node none) q.head (some node) }

/-- The part of `pop()` from src/aireadwritemutex.h:278 on, reached with the
current `tail` and the value `next` just loaded from `tail->m_next`: a
non-null `next` removes and returns `tail`; otherwise, if `tail` is not the
last pushed node a push is in progress and null is returned; otherwise
`push(&m_stub)` guarantees at least two nodes before the final removal
attempt. -/
def popRest (q : MQ) (tail : NodeRef) (next : Option NodeRef) : Option NodeRef × MQ :=
  match next with
  | some n => (some tail, { q with tail := n })
  | none =>
    if tail ≠ q.head then (none, q)
    else
      match (push q stub).next tail with
      | some n => (some tail, { push q stub with tail := n })
      | none => (none, push q stub)

/-- `pop()` (src/aireadwritemutex.h:262-320): load `m_tail` and its next
pointer; when `m_tail` is the stub an empty chain means null, otherwise the
stub is skipped first; then the shared logic `popRest` runs. -/
def pop (q : MQ) : Option NodeRef × MQ :=
  if q.tail = stub then
    match q.next q.tail with
    | none => (none, q)
    | some n => popRest { q with tail := n } n (q.next n)
  else
    popRest q q.tail (q.next q.tail)

/-- `Path nx a l b`: starting at node `a` and following the next pointers
visits exactly the nodes of `l`, ending at `b` (`a` itself not in `l`). -/
def Path (nx : NodeRef → Option NodeRef) : NodeRef → List NodeRef → NodeRef → Prop
  | a, [], b => a = b
  | a, x :: l, b => nx a = some x ∧ Path nx x l b

theorem Path.last_mem {nx : NodeRef → Option NodeRef} {a b : NodeRef} {l : List NodeRef}
    (h : Path nx a l b) : b ∈ a :: l := by
  induction l generalizing a with
  | nil => rw [show b = a from h.symm]; exact List.mem_cons_self a []
  | cons y ys ih => exact List.mem_cons_of_mem a (ih h.2)

/-- A path is unaffected by a store to a node outside of it. -/
theorem Path.out_of {nx : NodeRef → Option NodeRef} {a b x : NodeRef} {l : List NodeRef}
    {o : Option NodeRef} (h : Path nx a l b) (hx : x ∉ a :: l) :
    Path (setNext nx x o) a l b := by
  induction l generalizing a with
  | nil => exact h
  | cons y ys ih =>
    have hax : a ≠ x := fun he => hx (he ▸ List.mem_cons_self a _)
    exact ⟨(setNext_other nx o hax).trans h.1,
      ih h.2 fun hmem => hx (List.mem_cons_of_mem a hmem)⟩

/-- Storing `some n` into the final node of a duplicate-free path extends the
path by `n`. -/
theorem Path.extend {nx : NodeRef → Option NodeRef} {a b n : NodeRef} {l : List NodeRef}
    (h : Path nx a l b) (hnd : (a :: l).Nodup) :
    Path (setNext nx b (some n)) a (l ++ [n]) n := by
  induction l generalizing a with
  | nil =>
    rw [show a = b from h]
    exact ⟨setNext_self nx b (some n), rfl⟩
  | cons y ys ih =>
    have hab : a ≠ b := by
      intro he
      have hmem : b ∈ y :: ys := h.2.last_mem
      rw [← he] at hmem
      exact (List.nodup_cons.mp hnd).1 hmem
    exact ⟨(setNext_other nx (some n) hab).trans h.1, ih h.2 (List.nodup_cons.mp hnd).2⟩

/-- State invariant of a quiescent queue (every push completed) whose pending
— pushed and not yet popped — nodes are `pending`, oldest first: the chain of
next pointers from `m_tail` runs through a duplicate-free list `l` of nodes
ending at `m_head`, whose next pointer is null; the stub occurs in the chain
only as `m_tail` itself, and the pending nodes are the chain including
`m_tail` except when `m_tail` is the stub. -/
def Inv (q : MQ) (pending : List NodeRef) : Prop :=
  ∃ l : List NodeRef,
    Path q.next q.tail l q.head ∧
    q.next q.head = none ∧
    (q.tail :: l).Nodup ∧
    stub ∉ l ∧
    pending = if q.tail = stub then l else q.tail :: l

theorem init_inv : Inv init [] :=
  ⟨[], rfl, rfl, List.nodup_singleton stub, List.not_mem_nil stub, rfl⟩

/-- A completed `push` of a fresh non-stub node appends it to the pending
nodes. -/
theorem push_inv {q : MQ} {pending : List NodeRef} {node : NodeRef}
    (h : Inv q pending) (hfresh : node ∉ pending) (hnode : node ≠ stub) :
    Inv (push q node) (pending ++ [node]) := by
  obtain ⟨l, hpath, hterm, hnd, hstub, hpend⟩ := h
  have hchain : node ∉ q.tail :: l := by
    by_cases ht : q.tail = stub
    · rw [hpend, if_pos ht] at hfresh
      intro hmem
      rcases List.mem_cons.mp hmem with he | hmem2
      · exact hnode (he.trans ht)
      · exact hfresh hmem2
    · rw [hpend, if_neg ht] at hfresh
      exact hfresh
  have hhead : q.head ∈ q.tail :: l := hpath.last_mem
  have hnodehead : node ≠ q.head := fun he => hchain (he ▸ hhead)
  refine ⟨l ++ [node], ?_, ?_, ?_, ?_, ?_⟩
  · exact (hpath.out_of hchain).extend hnd
  · show setNext (setNext q.next node none) q.head (some node) node = none
    rw [setNext_other _ (some node) hnodehead, setNext_self]
  · show (q.tail :: (l ++ [node])).Nodup
    rw [show q.tail :: (l ++ [node]) = (q.tail :: l) ++ [node] from rfl, List.nodup_append]
    exact ⟨hnd, List.nodup_singleton node,
      fun x hx hx2 => hchain ((List.mem_singleton.mp hx2) ▸ hx)⟩
  · intro hmem
    rcases List.mem_append.mp hmem with hmem2 | hmem2
    · exact hstub hmem2
    · exact hnode (List.mem_singleton.mp hmem2).symm
  · show pending ++ [node] = if q.tail = stub then l ++ [node] else q.tail :: (l ++ [node])
    by_cases ht : q.tail = stub
    · rw [if_pos ht, hpend, if_pos ht]
    · rw [if_neg ht, hpend, if_neg ht]
      rfl

/-- `pop` on a quiescent queue returns null exactly when nothing is pending,
and otherwise removes and returns the oldest pending node, which is never the
stub. -/
theorem pop_inv {q : MQ} {pending : List NodeRef} (h : Inv q pending) :
    match pending with
    | [] => (pop q).1 = none ∧ Inv (pop q).2 []
    | x :: rest => (pop q).1 = some x ∧ x ≠ stub ∧ Inv (pop q).2 rest := by
  obtain ⟨qh, qt, qn⟩ := q
  obtain ⟨l, hpath, hterm, hnd, hstub, hpend⟩ := h
  simp only at hpath hterm hnd hstub hpend ⊢
  by_cases ht : qt = stub
  · subst ht
    rw [if_pos rfl] at hpend
    subst hpend
    cases pending with
    | nil =>
      have hhead : stub = qh := hpath
      subst hhead
      simp only [pop, if_pos rfl, hterm]
      exact ⟨rfl, [], hpath, hterm, hnd, hstub, rfl⟩
    | cons n l2 =>
      have hn : qn stub = some n := hpath.1
      have hnstub : n ≠ stub := fun he => hstub (he ▸ List.mem_cons_self n l2)
      cases l2 with
      | cons m l3 =>
        have hm : qn n = some m := hpath.2.1
        have hmstub : m ≠ stub := fun he =>
          hstub (he ▸ List.mem_cons_of_mem n (List.mem_cons_self m l3))
        simp only [pop, if_pos rfl, hn, popRest, hm]
        refine ⟨rfl, hnstub, l3, hpath.2.2, hterm, ?_, ?_, ?_⟩
        · exact (List.nodup_cons.mp hnd).2.sublist (List.sublist_cons_self n (m :: l3))
        · exact fun hmem => hstub (List.mem_cons_of_mem n (List.mem_cons_of_mem m hmem))
        · show m :: l3 = if m = stub then l3 else m :: l3
          rw [if_neg hmstub]
      | nil =>
        have hhead : n = qh := hpath.2
        subst hhead
        have hnone : qn n = none := hterm
        simp only [pop, if_pos rfl, hn, popRest, hnone, push, ne_eq, not_true_eq_false,
          if_neg, ite_false, reduceIte, setNext_self]
        exact ⟨trivial, hnstub, [], rfl, by simp [setNext, Ne.symm hnstub],
          List.nodup_singleton stub, List.not_mem_nil stub, rfl⟩
  · rw [if_neg ht] at hpend
    subst hpend
    cases l with
    | cons n l2 =>
      have hn : qn qt = some n := hpath.1
      have hnstub : n ≠ stub := fun he => hstub (he ▸ List.mem_cons_self n l2)
      simp only [pop, if_neg ht, popRest, hn]
      refine ⟨trivial, ht, l2, hpath.2, hterm, (List.nodup_cons.mp hnd).2, ?_, ?_⟩
      · exact fun hmem => hstub (List.mem_cons_of_mem n hmem)
      · show n :: l2 = if n = stub then l2 else n :: l2
        rw [if_neg hnstub]
    | nil =>
      have hhead : qt = qh := hpath
      subst hhead
      simp only [pop, if_neg ht, popRest, hterm, push, ne_eq, not_true_eq_false,
        if_neg, ite_false, reduceIte, setNext_self]
      exact ⟨trivial, ht, [], rfl, by simp [setNext, Ne.symm ht],
        List.nodup_singleton stub, List.not_mem_nil stub, rfl⟩

/-- A sequential program against the queue: completed pushes and pops. -/
inductive Op where
  | push (node : NodeRef)
  | pop
deriving DecidableEq, Repr

/-- Run a sequential program, collecting the result of every pop. -/
def run (q : MQ) : List Op → List (Option NodeRef)
  | [] => []
  | Op.push n :: ops => run (MpscQueue.push q n) ops
  | Op.pop :: ops => (MpscQueue.pop q).1 :: run (MpscQueue.pop q).2 ops

/-- The FIFO reference model: a pop returns the oldest pending node, or null
when nothing is pending. -/
def runSpec (pending : List NodeRef) : List Op → List (Option NodeRef)
  | [] => []
  | Op.push n :: ops => runSpec (pending ++ [n]) ops
  | Op.pop :: ops =>
    match pending with
    | [] => none :: runSpec [] ops
    | x :: rest => some x :: runSpec rest ops

/-- A program is valid when every pushed node is a client node (not the
stub) that is not currently enqueued. -/
def validOps (pending : List NodeRef) : List Op → Bool
  | [] => true
  | Op.push n :: ops =>
    decide (n ≠ stub) && decide (n ∉ pending) && validOps (pending ++ [n]) ops
  | Op.pop :: ops =>
    match pending with
    | [] => validOps [] ops
    | _ :: rest => validOps rest ops

/-- The implementation refines the FIFO model from any invariant state. -/
theorem run_eq_spec (ops : List Op) (q : MQ) (pending : List NodeRef)
    (h : Inv q pending) (hv : validOps pending ops = true) :
    run q ops = runSpec pending ops ∧ ∀ o ∈ run q ops, o ≠ some stub := by
  induction ops generalizing q pending with
  | nil => exact ⟨rfl, fun o ho => absurd ho (List.not_mem_nil o)⟩
  | cons op ops ih =>
    cases op with
    | push n =>
      rw [validOps] at hv
      simp only [Bool.and_eq_true, decide_eq_true_eq] at hv
      obtain ⟨⟨hn, hfresh⟩, hv⟩ := hv
      exact ih (MpscQueue.push q n) (pending ++ [n]) (push_inv h hfresh hn) hv
    | pop =>
      have hp := pop_inv h
      cases pending with
      | nil =>
        rw [validOps] at hv
        obtain ⟨h1, h2⟩ := hp
        obtain ⟨he, hns⟩ := ih (MpscQueue.pop q).2 [] h2 hv
        refine ⟨by rw [run, runSpec, h1, he], ?_⟩
        intro o ho
        rw [run] at ho
        rcases List.mem_cons.mp ho with he2 | hmem
        · rw [he2, h1]
          exact fun hcon => Option.noConfusion hcon
        · exact hns o hmem
      | cons x rest =>
        rw [validOps] at hv
        obtain ⟨h1, hxs, h2⟩ := hp
        obtain ⟨he, hns⟩ := ih (MpscQueue.pop q).2 rest h2 hv
        refine ⟨by rw [run, runSpec, h1, he], ?_⟩
        intro o ho
        rw [run] at ho
        rcases List.mem_cons.mp ho with he2 | hmem
        · rw [he2, h1]
          exact fun hcon => hxs (Option.some.inj hcon)
        · exact hns o hmem

/-- C5: in a sequential execution in which every push completes before the
next pop begins, the queue behaves as a FIFO: each pop returns null iff no
pushed-and-not-yet-popped node remains, and otherwise removes and returns
the earliest pushed remaining node, never the internal stub node. -/
theorem mpsc_sequential_fifo (ops : List Op) (hv : validOps [] ops = true) :
    run init ops = runSpec [] ops ∧ ∀ o ∈ run init ops, o ≠ some stub :=
  run_eq_spec ops init [] init_inv hv

/-- Closed instance of `mpsc_sequential_fifo`: two pushes followed by three
pops return the two nodes in push order and then null. -/
theorem mpsc_sequential_fifo_witness :
    run init [Op.push 1, Op.push 2, Op.pop, Op.pop, Op.pop] =
      runSpec [] [Op.push 1, Op.push 2, Op.pop, Op.pop, Op.pop] :=
  (mpsc_sequential_fifo [Op.push 1, Op.push 2, Op.pop, Op.pop, Op.pop] (by decide)).1

end MpscQueue
